import Mathlib

/-!
# Verification of the adaptive receipt-OCR pipeline

Shallow embedding of the OCR core of the ai-finance-platform repository:

* `src/lib/ocr/adaptiveOCR.js`  — `AdaptiveOCRProcessor` (orchestration, cache, metrics)
* `src/lib/ocr/ocrRouter.js`    — `OCRRouter` (escalation protocol, response parsing)
* the image analyzer module     — `ImageAnalyzer` (strategy decision, confidence scoring)
* the model registry module     — `MODEL_REGISTRY` / `resolveModelForStrategy`
* the server actions module     — `scanReceipt`'s sanitization layer
  (`sanitizeOcrOutput` / `normalizeAmount`)

Conventions of the embedding:

* JavaScript numbers are modelled as `ℚ` (all constants in the source are
  exactly representable; `Math.round` is modelled as the half-up integer
  rounding JS implements).  Timestamps (`Date.getTime()` values) are `ℤ`
  milliseconds; an *invalid* `Date` is `Option.none`.
* Host-runtime primitives that the repository merely calls — canvas image
  decoding, `JSON.parse`, regular-expression matching, `Date.now()`, the
  MD5 digest, and the network adapter — are inputs of the embedded
  functions (a decode oracle, the parsed-field record carried by a model
  response, explicit `now`/`elapsed` parameters, an injective encoding for
  the digest, and a deterministic stubbed adapter keyed by model id).
  All control flow *around* those primitives is transcribed from the source.
* JS `Map` is modelled by an insertion-ordered association list.
* Fallible JS code (`try`/`catch`) is modelled by total functions whose
  branches mirror the catch handlers; with a total (stubbed) adapter the
  only reachable throw site in `processReceipt` is the empty-file check.
-/

namespace OCR

/-! ## Image analyzer (`ImageAnalyzer`)

The pixel-level measurements (`calculateTextDensity`,
`analyzeLineCharacteristics`, `analyzeCharacterSpacing`,
`analyzeStrokeConsistency`, `calculateImageComplexity`) run over a decoded
canvas and — for stroke consistency — `Math.random` sampling.  The decoded
measurement bundle is therefore an input of the embedding (`ImgStats`),
produced by a decode oracle; `determineOCRStrategy` and
`calculateConfidence`, which the claims are about, are transcribed from the
source. -/

/-- The analysis signals read by `determineOCRStrategy` and
`calculateConfidence`: `textDensity.density`, `lineAnalysis.isConsistent`,
`spacingAnalysis.uniform`, `strokeAnalysis.consistent`,
`complexityScore.complexity`. -/
structure ImgStats where
  density : ℚ
  lineConsistent : Bool
  spacingUniform : Bool
  strokeConsistent : Bool
  complexity : String
  deriving Repr, DecidableEq

/-- `[!lineAnalysis?.isConsistent, !spacingAnalysis?.uniform,
!strokeAnalysis?.consistent].filter(Boolean).length` — computed identically
inside `determineOCRStrategy` and `calculateConfidence`. -/
def inconsistencyCount (s : ImgStats) : ℕ :=
  (if s.lineConsistent then 0 else 1) +
  (if s.spacingUniform then 0 else 1) +
  (if s.strokeConsistent then 0 else 1)

/-- `ImageAnalyzer.determineOCRStrategy` (strict if/else-if chain from the
source). -/
def determineOCRStrategy (s : ImgStats) : String :=
  let isHandwritten := inconsistencyCount s ≥ 2
  let isBatchProcessing := s.density > 0.4 ∧ s.complexity = "high"
  let hasMixedContent :=
    s.density > 0.3 ∧ s.complexity = "high" ∧ (¬s.lineConsistent ∨ ¬s.spacingUniform)
  if isBatchProcessing then "batch"
  else if isHandwritten then "handwriting"
  else if hasMixedContent then "mixed"
  else if s.density < 0.1 then "lightweight"
  else "standard"

/-- `ImageAnalyzer.calculateConfidence`: sequential `confidence +=`
accumulation from the source, with `totalChecks = 3 + 3 = 6` and the final
`Math.min(finalConfidence, 1.0)`. -/
def calculateConfidence (s : ImgStats) : ℚ :=
  let confidence : ℚ := 0.4
  let agree :=
    if s.lineConsistent ∧ s.spacingUniform ∧ s.strokeConsistent then
      (confidence + 0.4, (3 : ℕ))
    else if s.lineConsistent ∧ s.spacingUniform then
      (confidence + 0.25, 2)
    else if s.lineConsistent ∨ s.spacingUniform then
      (confidence + 0.15, 1)
    else (confidence, 0)
  let hw :=
    if inconsistencyCount s ≥ 2 then
      (agree.1 + 0.3, agree.2 + inconsistencyCount s)
    else agree
  let c3 := if s.density > 0.02 ∧ s.density < 0.7 then hw.1 + 0.1 else hw.1
  let c4 :=
    if s.complexity = "low" ∧ s.density < 0.3 then c3 + 0.15
    else if s.complexity = "high" ∧ s.density > 0.3 then c3 + 0.1
    else c3
  let totalChecks : ℕ := 3 + 3
  let agreementRatio : ℚ := (hw.2 : ℚ) / (totalChecks : ℚ)
  min (c4 + agreementRatio * 0.2) 1

/-- The file-size heuristic built in the `catch` branch of
`ImageAnalyzer.analyzeImage` (`fileSizeKB = imageBuffer.length / 1024`,
bands at 500/1000/2000 KB). -/
def fallbackStats (bufLen : ℕ) : ImgStats :=
  let fileSizeKB : ℚ := (bufLen : ℚ) / 1024
  if fileSizeKB > 500 then
    if fileSizeKB > 1000 then
      if fileSizeKB > 2000 then
        { density := 0.3, lineConsistent := false, spacingUniform := false,
          strokeConsistent := false, complexity := "high" }
      else
        { density := 0.3, lineConsistent := true, spacingUniform := true,
          strokeConsistent := true, complexity := "medium" }
    else
      { density := 0.3, lineConsistent := true, spacingUniform := true,
        strokeConsistent := true, complexity := "low" }
  else
    { density := 0.1, lineConsistent := true, spacingUniform := true,
      strokeConsistent := true, complexity := "low" }

/-- Result of `ImageAnalyzer.analyzeImage` (the fields downstream code
reads). -/
structure AnalysisOut where
  stats : ImgStats
  recommendedStrategy : String
  confidence : ℚ
  isFallback : Bool
  deriving Repr, DecidableEq

/-- `ImageAnalyzer.analyzeImage`.  `decode` is the canvas/sharp decoding and
pixel-measurement oracle: `none` models the decode failure that lands in the
`catch` branch; `some` carries the measured signals of the successfully
decoded image.  The function is total: the decode error is absorbed into
the file-size fallback, never propagated. -/
def analyzeImage (decode : List ℕ → Option ImgStats) (buf : List ℕ) : AnalysisOut :=
  match decode buf with
  | some s =>
      { stats := s, recommendedStrategy := determineOCRStrategy s,
        confidence := calculateConfidence s, isFallback := false }
  | none =>
      let s := fallbackStats buf.length
      { stats := s, recommendedStrategy := determineOCRStrategy s,
        confidence := 0.6, isFallback := true }

/-! ## Model registry (`MODEL_REGISTRY`, `resolveModelForStrategy`) -/

/-- Invocation parameters of one registry entry. -/
structure ModelParams where
  temperature : ℚ
  timeoutMs : ℕ
  contentOrder : Option String := none
  deriving Repr, DecidableEq

/-- One model reference (`{provider, modelId, params}`). -/
structure ModelRef where
  provider : String
  modelId : String
  params : ModelParams
  deriving Repr, DecidableEq

/-- `{primary, escalate}` for one strategy. -/
structure StrategyEntry where
  primary : ModelRef
  escalate : List ModelRef
  deriving Repr, DecidableEq

/-- The `fallback` entry of `MODEL_REGISTRY`. -/
def fallbackEntry : StrategyEntry :=
  { primary := { provider := "openrouter", modelId := "google/gemini-2.0-flash-exp:free",
                 params := { temperature := 0.3, timeoutMs := 45000 } },
    escalate := [] }

/-- `MODEL_REGISTRY` (static strategy → model-chain mapping of the source). -/
def MODEL_REGISTRY (strategy : String) : Option StrategyEntry :=
  if strategy = "lightweight" then some
    { primary := { provider := "openrouter", modelId := "nvidia/nemotron-nano-12b-v2-vl:free",
                   params := { temperature := 0.1, timeoutMs := 20000,
                               contentOrder := some "image-first" } },
      escalate := [ { provider := "openrouter", modelId := "google/gemma-3-27b-it:free",
                      params := { temperature := 0.2, timeoutMs := 25000,
                                  contentOrder := some "text-first" } } ] }
  else if strategy = "standard" then some
    { primary := { provider := "openrouter", modelId := "qwen/qwen2.5-vl-32b-instruct:free",
                   params := { temperature := 0.2, timeoutMs := 25000 } },
      escalate := [ { provider := "openrouter", modelId := "google/gemini-2.0-flash-exp:free",
                      params := { temperature := 0.2, timeoutMs := 30000 } } ] }
  else if strategy = "handwriting" then some
    { primary := { provider := "openrouter", modelId := "google/gemma-3-27b-it:free",
                   params := { temperature := 0.35, timeoutMs := 35000 } },
      escalate := [ { provider := "openrouter", modelId := "qwen/qwen2.5-vl-32b-instruct:free",
                      params := { temperature := 0.35, timeoutMs := 40000 } } ] }
  else if strategy = "mixed" then some
    { primary := { provider := "openrouter", modelId := "qwen/qwen2.5-vl-32b-instruct:free",
                   params := { temperature := 0.25, timeoutMs := 30000 } },
      escalate := [ { provider := "openrouter", modelId := "google/gemini-2.0-flash-exp:free",
                      params := { temperature := 0.3, timeoutMs := 40000 } } ] }
  else if strategy = "batch" then some
    { primary := { provider := "openrouter", modelId := "qwen/qwen2.5-vl-32b-instruct:free",
                   params := { temperature := 0.2, timeoutMs := 35000 } },
      escalate := [ { provider := "openrouter", modelId := "google/gemini-2.0-flash-exp:free",
                      params := { temperature := 0.25, timeoutMs := 45000 } } ] }
  else if strategy = "fallback" then some fallbackEntry
  else none

/-- `resolveModelForStrategy(strategy)` = `MODEL_REGISTRY[strategy] ||
MODEL_REGISTRY.fallback`. -/
def resolveModelForStrategy (strategy : String) : StrategyEntry :=
  (MODEL_REGISTRY strategy).getD fallbackEntry

/-! ## OCR router (`OCRRouter`)

A model response is its raw text plus the outcomes of the host primitives
(`JSON.parse` after code-fence stripping, the amount/date salvage regexes,
the first-meaningful-line scan) applied to that text.  The router and the
parsing control flow over those outcomes are transcribed from the source. -/

/-- JS whitespace as far as `String.prototype.trim` is concerned (the
characters that can occur in this code base's strings). -/
def isJsWhitespace (c : Char) : Bool :=
  c = ' ' ∨ c = '\t' ∨ c = '\n' ∨ c = '\r'

/-- `String.prototype.trim` (strip leading and trailing whitespace). -/
def jsTrim (s : String) : String :=
  String.mk (((s.data.dropWhile isJsWhitespace).reverse.dropWhile isJsWhitespace).reverse)

/-- ASCII lower-casing of one character (`String.prototype.toLowerCase`
restricted to the ASCII range occurring in this code base). -/
def jsCharLower (c : Char) : Char :=
  if 'A' ≤ c ∧ c ≤ 'Z' then Char.ofNat (c.toNat + 32) else c

/-- `String.prototype.toLowerCase`. -/
def jsToLower (s : String) : String :=
  String.mk (s.data.map jsCharLower)

/-- Fields `parseAndValidateResponse` reads from the `JSON.parse`d object.
`amountTruthy` is JS truthiness of `data.amount`; `amountParsed` is
`parseFloat(data.amount)` (`none` = `NaN`).  `dateField` is
`data.date ? new Date(data.date) : —` : outer `none` = field absent/falsy,
`some none` = present but an invalid date, `some (some t)` = timestamp `t`. -/
structure RespData where
  amountTruthy : Bool
  amountParsed : Option ℚ
  description : Option String
  dateField : Option (Option ℤ)
  category : Option String
  merchantName : Option String
  confidence : Option ℚ
  deriving Repr, DecidableEq

/-- A model response text together with the host-primitive outcomes on it:
`jsonData` = the object obtained by direct `JSON.parse` or by parsing the
first balanced brace-delimited candidate (`none` = both fail);
`amountSalvage` = `parseFloat` of the separator-stripped match of the
amount-salvage regex; `dateSalvage` = timestamp of the ISO-date regex
match; `firstLine` = first line containing a letter. -/
structure RespText where
  raw : String
  jsonData : Option RespData
  amountSalvage : Option ℚ
  dateSalvage : Option ℤ
  firstLine : Option String
  deriving Repr, DecidableEq

/-- `x || d` for a JS string-valued field (`none`/empty string falls back). -/
def jsOrS (v : Option String) (d : String) : String :=
  match v with
  | none => d
  | some s => if s = "" then d else s

/-- `x || d` for a JS number-valued field (`none`/`0` falls back). -/
def jsOrQ (v : Option ℚ) (d : ℚ) : ℚ :=
  match v with
  | none => d
  | some q => if q = 0 then d else q

/-- The result object built by `parseAndValidateResponse` /
`extractBasicInfo`.  `date = none` models an invalid `Date`. -/
structure OCRResult where
  amount : ℚ
  date : Option ℤ
  description : String
  category : String
  merchantName : String
  confidence : ℚ
  strategy : String
  rawResponse : String
  note : Option String := none
  deriving Repr, DecidableEq

/-- `OCRRouter.extractBasicInfo` (regex fallback for non-JSON responses). -/
def extractBasicInfo (rt : RespText) (strategy : String) (now : ℤ) : OCRResult :=
  { amount := rt.amountSalvage.getD 0,
    date := some (rt.dateSalvage.getD now),
    description := rt.firstLine.getD "Receipt scan (parsed from text)",
    category := "other-expense",
    merchantName := "Unknown Merchant",
    confidence := 0.5,
    strategy := strategy,
    rawResponse := rt.raw,
    note := some "Response parsed from non-JSON format" }

/-- `!data.description || String(data.description).trim().length < 2`. -/
def descTrivial (d : Option String) : Bool :=
  match d with
  | none => true
  | some s => decide ((jsTrim s).length < 2)

/-- `OCRRouter.parseAndValidateResponse`.  On a parsed object it applies the
source's salvage/default logic; on parse failure it falls back to
`extractBasicInfo`. -/
def parseAndValidateResponse (rt : RespText) (strategy : String) (now : ℤ) : OCRResult :=
  match rt.jsonData with
  | none => extractBasicInfo rt strategy now
  | some data =>
      let amount : ℚ :=
        if data.amountTruthy ∧ data.amountParsed.isSome then data.amountParsed.getD 0
        else rt.amountSalvage.getD 0
      let dataDescription : Option String :=
        if descTrivial data.description then some (rt.firstLine.getD "Receipt scan")
        else data.description
      { amount := amount,
        date := match data.dateField with
                | some d => d
                | none => some now,
        description := jsOrS dataDescription "Receipt scan",
        category := jsOrS data.category "other-expense",
        merchantName := jsOrS data.merchantName "Unknown Merchant",
        confidence := jsOrQ data.confidence 0.8,
        strategy := strategy,
        rawResponse := rt.raw,
        note := none }

/-- The stubbed vision-model adapter: a deterministic response per model id
(the prompt only varies the text sent upstream, so it is not part of the
key). -/
abbrev Adapter := String → RespText

/-- Escalation loop of `routeToOCR` (entered when the primary text is empty
or trims to length < 2): `usedModel` is reassigned *before* each attempt
and `text` keeps the last response; the loop breaks at the first
non-trivial text.  Returns (text, usedModel, adapter call count). -/
def escLoop (adapter : Adapter) :
    List ModelRef → RespText → String → ℕ → RespText × String × ℕ
  | [], text, usedModel, calls => (text, usedModel, calls)
  | esc :: rest, _, _, calls =>
      let g := adapter esc.modelId
      if ¬(g.raw = "") ∧ (jsTrim g.raw).length > 1 then (g, esc.modelId, calls + 1)
      else escLoop adapter rest g esc.modelId (calls + 1)

/-- Amount-retry loop of `routeToOCR` (entered when the parsed amount is
missing/`NaN`/≤ 0 and escalation candidates exist): accepts the first retry
whose parsed amount is > 0; `usedModel` is again reassigned before each
attempt. -/
def retryLoop (adapter : Adapter) (strategy : String) (now : ℤ) :
    List ModelRef → OCRResult → String → ℕ → OCRResult × String × ℕ
  | [], parsed, usedModel, calls => (parsed, usedModel, calls)
  | esc :: rest, parsed, _, calls =>
      let g := adapter esc.modelId
      let retried := parseAndValidateResponse g strategy now
      if retried.amount > 0 then (retried, esc.modelId, calls + 1)
      else retryLoop adapter strategy now rest parsed esc.modelId (calls + 1)

/-- What `routeToOCR` returns (the fields downstream code reads), plus the
adapter call count of the stub. -/
structure RouteOut where
  res : OCRResult
  model : String
  useCase : String
  calls : ℕ
  deriving Repr, DecidableEq

/-- `OCRRouter.routeToOCR`: primary attempt, empty-text escalation, parse,
amount-retry escalation, and the final `{...parsedData, model: usedModel,
useCase: strategy}` assembly.  Timing fields (wall clock) are environment
readings and are not modelled. -/
def routeToOCR (adapter : Adapter) (strategy : String) (now : ℤ) : RouteOut :=
  let entry := resolveModelForStrategy strategy
  let g0 := adapter entry.primary.modelId
  let afterEsc :=
    if g0.raw = "" ∨ (jsTrim g0.raw).length < 2 then
      escLoop adapter entry.escalate g0 entry.primary.modelId 1
    else (g0, entry.primary.modelId, 1)
  let parsed := parseAndValidateResponse afterEsc.1 strategy now
  let afterRetry :=
    if parsed.amount ≤ 0 ∧ entry.escalate.length > 0 then
      retryLoop adapter strategy now entry.escalate parsed afterEsc.2.1 afterEsc.2.2
    else (parsed, afterEsc.2.1, afterEsc.2.2)
  { res := { afterRetry.1 with strategy := strategy },
    model := afterRetry.2.1,
    useCase := strategy,
    calls := afterRetry.2.2 }

/-- What `OCRRouter.processReceipt` returns: the routed result spread
together with the analysis summary. -/
structure RouterResult where
  res : OCRResult
  model : String
  useCase : String
  analysisStrategy : String
  analysisConfidence : ℚ
  calls : ℕ
  deriving Repr, DecidableEq

/-- `OCRRouter.processReceipt`: analyze, then route on the recommended
strategy.  (With a total adapter and total analyzer the catch branch is
unreachable.) -/
def routerProcessReceipt (decode : List ℕ → Option ImgStats) (adapter : Adapter)
    (buf : List ℕ) (now : ℤ) : RouterResult :=
  let analysis := analyzeImage decode buf
  let r := routeToOCR adapter analysis.recommendedStrategy now
  { res := r.res, model := r.model, useCase := r.useCase,
    analysisStrategy := analysis.recommendedStrategy,
    analysisConfidence := analysis.confidence,
    calls := r.calls }

/-! ## Adaptive processor (`AdaptiveOCRProcessor`) -/

/-- An uploaded file: MIME type, byte content, and the host-reported
`file.size` (the source reads `file.size`, never the buffer length, for the
size checks). -/
structure JsFile where
  type : String
  bytes : List ℕ
  size : ℕ
  deriving Repr, DecidableEq

/-- `AdaptiveOCRProcessor.validateImageHeader`: magic-byte sniffing with the
100-byte/50MB plausibility window. -/
def validateImageHeader (buffer : List ℕ) : Bool :=
  if buffer.length < 4 then false
  else if [0xFF, 0xD8, 0xFF].isPrefixOf buffer then true       -- JPEG
  else if [0x89, 0x50, 0x4E, 0x47].isPrefixOf buffer then true -- PNG
  else if [0x52, 0x49, 0x46, 0x46].isPrefixOf buffer then true -- WebP (RIFF)
  else if [0x47, 0x49, 0x46].isPrefixOf buffer then true       -- GIF
  else if [0x42, 0x4D].isPrefixOf buffer then true             -- BMP
  else if buffer.length > 100 ∧ buffer.length < 50 * 1024 * 1024 then true
  else false

/-- `AdaptiveOCRProcessor.validateAndPreprocess`: `none` = `{valid: true}`,
`some reason` = `{valid: false, reason}`. -/
def validateAndPreprocess (buffer : List ℕ) (file : JsFile) : Option String :=
  if file.size > 10 * 1024 * 1024 then some "File too large"
  else if ¬(file.type = "image/jpeg" ∨ file.type = "image/png" ∨ file.type = "image/webp") then
    some "Unsupported file type"
  else if ¬validateImageHeader buffer then some "Invalid image format"
  else none

/-- `validateExtractedData`'s return value. -/
structure Validation where
  valid : Bool
  errors : List String
  warnings : List String
  deriving Repr, DecidableEq

/-- `new Date('1900-01-01').getTime()` in milliseconds. -/
def epoch1900 : ℤ := -2208988800000

/-- `AdaptiveOCRProcessor.validateExtractedData` (amount, date, description
checks; push order as in the source). -/
def validateExtractedData (r : OCRResult) (now : ℤ) : Validation :=
  let amountErrors : List String :=
    if r.amount ≤ 0 then ["Invalid or missing amount"] else []
  let amountWarnings : List String :=
    if r.amount ≤ 0 then []
    else if r.amount > 1000000 then ["Unusually high amount detected"] else []
  let dateErrors : List String :=
    match r.date with
    | none => ["Invalid or missing date"]
    | some _ => []
  let dateWarnings : List String :=
    match r.date with
    | none => []
    | some t =>
        (if t > now then ["Future date detected"] else []) ++
        (if t < epoch1900 then ["Very old date detected"] else [])
  let descWarnings : List String :=
    if (jsTrim r.description).length < 2 then ["Very short or missing description"] else []
  let errors := amountErrors ++ dateErrors
  { valid := errors.isEmpty,
    errors := errors,
    warnings := amountWarnings ++ dateWarnings ++ descWarnings }

/-- Contiguous-sublist test (JS `String.prototype.includes` on char
lists). -/
def charsInclude (needle : List Char) : List Char → Bool
  | [] => needle.isEmpty
  | c :: rest => if needle.isPrefixOf (c :: rest) then true else charsInclude needle rest

/-- `text.includes(keyword)`. -/
def strIncludes (text keyword : String) : Bool :=
  charsInclude keyword.data text.data

/-- The `categoryKeywords` table of `enhanceCategorySuggestion`, in declared
order. -/
def categoryKeywords : List (String × List String) :=
  [ ("groceries", ["grocery", "supermarket", "food", "fresh", "produce", "market"]),
    ("transportation", ["gas", "fuel", "taxi", "uber", "lyft", "parking", "toll"]),
    ("food", ["restaurant", "cafe", "coffee", "pizza", "burger", "dining"]),
    ("shopping", ["store", "shop", "mall", "retail", "clothing", "electronics"]),
    ("utilities", ["electric", "water", "gas", "internet", "phone", "cable"]),
    ("healthcare", ["pharmacy", "medical", "doctor", "hospital", "clinic", "drug"]),
    ("entertainment", ["movie", "theater", "game", "music", "sport", "gym"]),
    ("travel", ["hotel", "flight", "airline", "travel", "vacation", "booking"]) ]

/-- `AdaptiveOCRProcessor.enhanceCategorySuggestion`: first category whose
keyword occurs in the lower-cased `description merchantName` text, else
`result.category || 'other-expense'`. -/
def enhanceCategorySuggestion (r : OCRResult) : String :=
  let text := (r.description ++ " " ++ r.merchantName).toLower
  let rec firstMatch : List (String × List String) → Option String
    | [] => none
    | (cat, kws) :: rest =>
        if kws.any (fun kw => strIncludes text kw) then some cat else firstMatch rest
  match firstMatch categoryKeywords with
  | some cat => cat
  | none => jsOrS (some r.category) "other-expense"

/-- The `strategyConfidence` prior table of `calculateOverallConfidence`
(default 0.5). -/
def strategyConfidence (strategy : String) : ℚ :=
  if strategy = "lightweight" then 0.9
  else if strategy = "standard" then 0.8
  else if strategy = "handwriting" then 0.6
  else if strategy = "batch" then 0.7
  else if strategy = "mixed" then 0.6
  else if strategy = "fallback" then 0.4
  else 0.5

/-- `AdaptiveOCRProcessor.calculateOverallConfidence`: validation-adjusted
confidence averaged with the per-strategy prior, clamped to [0,1]. -/
def calculateOverallConfidence (conf : ℚ) (v : Validation) (strategy : String) : ℚ :=
  let c0 := jsOrQ (some conf) 0.5
  let c1 := if v.warnings.length > 0 then c0 - 0.1 else c0
  let c2 := if v.errors.length > 0 then c1 - 0.3 else c1
  let blended := (c2 + strategyConfidence strategy) / 2
  max 0 (min 1 blended)

/-- The enriched result built by `postProcessResult` (router-result spread
plus timestamp, validation, metadata, suggestion and blended score). -/
structure Enriched where
  res : OCRResult
  model : String
  useCase : String
  analysisStrategy : String
  analysisConfidence : ℚ
  processingTimestamp : ℤ
  validation : Validation
  fileType : String
  isBatch : Bool
  batchIndex : Option ℕ
  suggestedCategory : String
  confidenceScore : ℚ
  deriving Repr, DecidableEq

/-- The options bag handed to `processReceipt`. -/
structure ProcOptions where
  useCache : Bool := false
  isBatch : Bool := false
  batchIndex : Option ℕ := none
  fileType : Option String := none
  deriving Repr, DecidableEq

/-- `AdaptiveOCRProcessor.postProcessResult` (`processingTimestamp` is the
ambient wall-clock reading; `options.batchIndex || null` sends index 0 to
`null`, a JS falsiness artefact kept faithfully). -/
def postProcessResult (rr : RouterResult) (opts : ProcOptions) (now : ℤ) : Enriched :=
  let v := validateExtractedData rr.res now
  { res := rr.res, model := rr.model, useCase := rr.useCase,
    analysisStrategy := rr.analysisStrategy,
    analysisConfidence := rr.analysisConfidence,
    processingTimestamp := now,
    validation := v,
    fileType := jsOrS opts.fileType "unknown",
    isBatch := opts.isBatch,
    batchIndex := match opts.batchIndex with
                  | some 0 => none
                  | x => x,
    suggestedCategory := enhanceCategorySuggestion rr.res,
    confidenceScore := calculateOverallConfidence rr.res.confidence v rr.res.strategy }

/-! ### Cache (JS `Map` as an insertion-ordered association list) -/

/-- `Map.prototype.get`-style lookup. -/
def jsMapLookup (k : String) : List (String × Enriched) → Option Enriched
  | [] => none
  | (k', v) :: rest => if k' = k then some v else jsMapLookup k rest

/-- `Map.prototype.set`: update in place when the key exists (position
preserved), else append (insertion order). -/
def jsMapSet (k : String) (v : Enriched) : List (String × Enriched) → List (String × Enriched)
  | [] => [(k, v)]
  | (k', v') :: rest =>
      if k' = k then (k', v) :: rest else (k', v') :: jsMapSet k v rest

/-- `Map.prototype.delete` (keys are unique in a JS `Map`, so removing the
first occurrence is exact). -/
def jsMapDelete (k : String) : List (String × Enriched) → List (String × Enriched)
  | [] => []
  | (k', v') :: rest =>
      if k' = k then rest else (k', v') :: jsMapDelete k rest

/-- `this.cacheMaxSize` (constructor constant). -/
def cacheMaxSize : ℕ := 100

/-- `AdaptiveOCRProcessor.updateCache`: evict the oldest-inserted key when
at capacity, then insert. -/
def updateCache (key : String) (result : Enriched)
    (cache : List (String × Enriched)) : List (String × Enriched) :=
  let evicted :=
    if cache.length ≥ cacheMaxSize then
      match cache.head? with
      | some (firstKey, _) => jsMapDelete firstKey cache
      | none => cache
    else cache
  jsMapSet key result evicted

/-- The MD5 content digest of `generateCacheKey`, modelled as an injective
encoding of the byte list (all the pipeline relies on is that it is a
deterministic function of the content). -/
def md5 (bytes : List ℕ) : String := toString bytes

/-! ### Metrics -/

/-- `this.metrics` (counters and running means; `lastReset` is a wall-clock
reading, not modelled). -/
structure Metrics where
  totalProcessed : ℕ
  strategyCounts : String → ℕ
  averageProcessingTime : ℚ
  successRate : ℚ

/-- `AdaptiveOCRProcessor.updateMetrics`: increment the counters and fold
the new sample into both running means. -/
def updateMetrics (m : Metrics) (resultStrategy : String) (resultConfidence : ℚ)
    (processingTime : ℚ) : Metrics :=
  let n := m.totalProcessed + 1
  let strategy := if resultStrategy = "" then "unknown" else resultStrategy
  { totalProcessed := n,
    strategyCounts := fun k =>
      if k = strategy then m.strategyCounts strategy + 1 else m.strategyCounts k,
    averageProcessingTime :=
      (m.averageProcessingTime * ((n : ℚ) - 1) + processingTime) / (n : ℚ),
    successRate :=
      (m.successRate * ((n : ℚ) - 1) + (if resultConfidence > 0.5 then 1 else 0)) / (n : ℚ) }

/-! ### `processReceipt` -/

/-- What `processReceipt` can return: the enriched success-path object, or
the fallback-path object `{...routeToOCR('fallback'), isFallback: true,
fallbackReason, confidence: 0.3}` (the spread's confidence is overridden,
which the constructor stores directly). -/
inductive ProcResult where
  | enriched (e : Enriched)
  | fallback (res : OCRResult) (model : String) (useCase : String) (reason : String)
  deriving Repr, DecidableEq

/-- The amount field the caller (`scanReceipt`) reads off either result
shape. -/
def ProcResult.amount : ProcResult → ℚ
  | .enriched e => e.res.amount
  | .fallback r _ _ _ => r.amount

/-- Mutable processor state: the cache, the metrics, and the adapter
call counter of the stubbed vision model. -/
structure ProcState where
  cache : List (String × Enriched)
  metrics : Metrics
  modelCalls : ℕ

/-- `AdaptiveOCRProcessor.fallbackProcessing` (reached from the catch
handler): route directly on the `fallback` strategy and tag the result. -/
def fallbackProcessing (adapter : Adapter) (reason : String) (now : ℤ)
    (st : ProcState) : ProcResult × ProcState :=
  let r := routeToOCR adapter "fallback" now
  (ProcResult.fallback { r.res with confidence := 0.3 } r.model r.useCase reason,
   { st with modelCalls := st.modelCalls + r.calls })

/-- `AdaptiveOCRProcessor.processReceipt`.  `decode`/`adapter` are the host
oracles, `now` the wall clock at post-processing, `elapsed` the measured
`Date.now() - startTime` fed to the metrics.  The empty-file throw is the
only reachable throw site and is caught by the fallback handler; a failed
pre-validation only logs and processing continues (source comment: "Don't
throw error, try to continue with processing"). -/
def processReceipt (decode : List ℕ → Option ImgStats) (adapter : Adapter)
    (now : ℤ) (elapsed : ℚ) (file : JsFile) (opts : ProcOptions)
    (st : ProcState) : ProcResult × ProcState :=
  if file.size = 0 then
    -- throw new Error('Invalid file provided') → catch → fallbackProcessing
    fallbackProcessing adapter "Invalid file provided" now st
  else
    let cacheKey := md5 file.bytes
    match (if opts.useCache then jsMapLookup cacheKey st.cache else none) with
    | some cached => (ProcResult.enriched cached, st)
    | none =>
        let imageBuffer := file.bytes
        let _preValidation := validateAndPreprocess imageBuffer file  -- warning only
        let rr := routerProcessReceipt decode adapter imageBuffer now
        let enhanced := postProcessResult rr opts now
        let metrics' := updateMetrics st.metrics enhanced.res.strategy
          enhanced.res.confidence elapsed
        let cache' := if opts.useCache then updateCache cacheKey enhanced st.cache
                      else st.cache
        (ProcResult.enriched enhanced,
         { cache := cache', metrics := metrics',
           modelCalls := st.modelCalls + rr.calls })

/-! ## Sanitization layer (`scanReceipt` server action)

`scanReceipt` pipes the processor result through `sanitizeOcrOutput`, whose
amount component is `normalizeAmount`. -/

/-- `Math.round` (half-up, as JS implements it for all reals). -/
def jsRound (q : ℚ) : ℤ := ⌊q + 1 / 2⌋

/-- `normalizeAmount`: non-finite/`NaN` numbers (the `none` case) become 0;
finite values are clamped to [0, 1e7] and rounded to 2 decimals. -/
def normalizeAmount (value : Option ℚ) : ℚ :=
  match value with
  | none => 0
  | some num =>
      let clamped := min (max num 0) 10000000
      (jsRound (clamped * 100) : ℚ) / 100

/-- The amount of the object `scanReceipt` returns: the processor result's
amount piped through `sanitizeOcrOutput`/`normalizeAmount`. -/
def scanReceiptAmount (r : ProcResult) : ℚ :=
  normalizeAmount (some r.amount)

/-! ## Derived vocabulary used by the theorem statements -/

/-- The router's "empty or malformed" test on a response text:
`!text || text.trim().length < 2`. -/
def trivialText (g : RespText) : Prop :=
  g.raw = "" ∨ (jsTrim g.raw).length < 2

instance (g : RespText) : Decidable (trivialText g) := by
  unfold trivialText; infer_instance

/-- Whether a `processReceipt` outcome is the enriched success-path
object. -/
def ProcResult.isEnriched : ProcResult → Bool
  | .enriched _ => true
  | .fallback _ _ _ _ => false

/-- Numeric rank of the analyzer's complexity label (low < medium <
high). -/
def complexityRank (s : ImgStats) : ℕ :=
  if s.complexity = "high" then 2 else if s.complexity = "medium" then 1 else 0

/-- Agreement bonus of the confidence score, written as the source's
decision ladder actually awards it: +0.4 for all three typed-text signals,
else +0.25 for line-consistency AND spacing-uniformity, else +0.15 for
line-consistency OR spacing-uniformity (stroke consistency alone awards
nothing). -/
def agreementAdd (s : ImgStats) : ℚ :=
  if s.lineConsistent ∧ s.spacingUniform ∧ s.strokeConsistent then 0.4
  else if s.lineConsistent ∧ s.spacingUniform then 0.25
  else if s.lineConsistent ∨ s.spacingUniform then 0.15
  else 0

/-- Agreement score feeding the agreement ratio (3/2/1/0 along the same
ladder). -/
def agreementScore (s : ImgStats) : ℕ :=
  if s.lineConsistent ∧ s.spacingUniform ∧ s.strokeConsistent then 3
  else if s.lineConsistent ∧ s.spacingUniform then 2
  else if s.lineConsistent ∨ s.spacingUniform then 1
  else 0

/-- Handwriting bonus: +0.3 when the disagreement count is ≥ 2. -/
def handwritingAdd (s : ImgStats) : ℚ :=
  if inconsistencyCount s ≥ 2 then 0.3 else 0

/-- Handwriting contribution to the agreement score (the disagreement count
itself, when ≥ 2). -/
def handwritingScore (s : ImgStats) : ℕ :=
  if inconsistencyCount s ≥ 2 then inconsistencyCount s else 0

/-- Density bonus: +0.1 for density strictly between 0.02 and 0.7. -/
def densityAdd (s : ImgStats) : ℚ :=
  if s.density > 0.02 ∧ s.density < 0.7 then 0.1 else 0

/-- Complexity bonus: +0.15 for low complexity with density < 0.3, else
+0.1 for high complexity with density > 0.3. -/
def complexityAdd (s : ImgStats) : ℚ :=
  if s.complexity = "low" ∧ s.density < 0.3 then 0.15
  else if s.complexity = "high" ∧ s.density > 0.3 then 0.1
  else 0

/-! ## Concrete fixtures (stubbed adapters, files, states) -/

/-- A clean low-density printed-text analysis (recommends `lightweight`). -/
def statsClean : ImgStats :=
  { density := 0, lineConsistent := true, spacingUniform := true,
    strokeConsistent := true, complexity := "low" }

/-- Decode oracle that always succeeds with `statsClean`. -/
def decodeClean : List ℕ → Option ImgStats := fun _ => some statsClean

/-- Decode oracle that always fails (canvas and sharp both reject). -/
def decodeFail : List ℕ → Option ImgStats := fun _ => none

/-- A completely empty model response. -/
def emptyResp : RespText :=
  { raw := "", jsonData := none, amountSalvage := none, dateSalvage := none,
    firstLine := none }

/-- A valid JSON model response whose parsed object carries amount 12.5. -/
def okResp : RespText :=
  { raw := "amount: 12.5",
    jsonData := some
      { amountTruthy := true, amountParsed := some (25 / 2),
        description := some "Coffee Shop receipt", dateField := none,
        category := none, merchantName := none, confidence := none },
    amountSalvage := none, dateSalvage := none,
    firstLine := some "amount: 12.5" }

/-- Stub adapter: every model answers with the valid response. -/
def adapterOk : Adapter := fun _ => okResp

/-- Stub adapter for the escalation scenario: the escalation model
(`google/gemma-3-27b-it:free`, the `lightweight` chain's single escalation)
answers with the valid response, every other model with empty text. -/
def adapterEsc : Adapter := fun m =>
  if m = "google/gemma-3-27b-it:free" then okResp else emptyResp

/-- A small well-formed JPEG upload. -/
def fileJpeg : JsFile :=
  { type := "image/jpeg", bytes := [0xFF, 0xD8, 0xFF, 0xE0], size := 4 }

/-- An oversized upload (10MB + 1 byte as reported by `file.size`). -/
def fileOversized : JsFile :=
  { type := "image/jpeg", bytes := [0xFF, 0xD8, 0xFF, 0xE0], size := 10485761 }

/-- An empty upload. -/
def fileEmpty : JsFile := { type := "image/jpeg", bytes := [], size := 0 }

/-- Freshly constructed metrics. -/
def metrics0 : Metrics :=
  { totalProcessed := 0, strategyCounts := fun _ => 0,
    averageProcessingTime := 0, successRate := 0 }

/-- Freshly constructed processor state. -/
def state0 : ProcState := { cache := [], metrics := metrics0, modelCalls := 0 }

/-- Options with caching enabled. -/
def optsCache : ProcOptions := { useCache := true }

/-- Default options. -/
def optsPlain : ProcOptions := {}

/-- A placeholder enriched result for cache experiments. -/
def dummyEnriched : Enriched :=
  { res := { amount := 1, date := some 0, description := "receipt",
             category := "other-expense", merchantName := "Unknown Merchant",
             confidence := 1, strategy := "standard", rawResponse := "" },
    model := "google/gemini-2.0-flash-exp:free", useCase := "standard",
    analysisStrategy := "standard", analysisConfidence := 1,
    processingTimestamp := 0, validation := { valid := true, errors := [], warnings := [] },
    fileType := "unknown", isBatch := false, batchIndex := none,
    suggestedCategory := "other-expense", confidenceScore := 1 }

/-- A full cache: 100 entries with distinct keys `"0"`, …, `"99"`. -/
def cache100 : List (String × Enriched) :=
  (List.range 100).map (fun i => (toString i, dummyEnriched))

/-- An analysis where exactly two of the three typed-text signals (line
consistency and stroke consistency, but not spacing uniformity) are
true. -/
def statsTwoAgree : ImgStats :=
  { density := 0, lineConsistent := true, spacingUniform := false,
    strokeConsistent := true, complexity := "high" }

/-- The single escalation entry of the `lightweight` strategy chain. -/
def gemmaEsc : ModelRef :=
  { provider := "openrouter", modelId := "google/gemma-3-27b-it:free",
    params := { temperature := 0.2, timeoutMs := 25000, contentOrder := some "text-first" } }

/-! # Theorems -/

/-- Closed form of `calculateConfidence`: base 0.4 plus the agreement,
handwriting, density and complexity bonuses, plus agreementRatio × 0.2,
capped at 1. -/
theorem calculateConfidence_closed_form (s : ImgStats) :
    calculateConfidence s =
      min (0.4 + agreementAdd s + handwritingAdd s + densityAdd s + complexityAdd s +
        (((agreementScore s + handwritingScore s : ℕ) : ℚ) / 6) * 0.2) 1 := by
  obtain ⟨d, lc, su, sc, cx⟩ := s
  unfold calculateConfidence agreementAdd handwritingAdd densityAdd complexityAdd
    agreementScore handwritingScore inconsistencyCount
  cases lc <;> cases su <;> cases sc <;>
    simp only [Bool.false_eq_true, Bool.true_eq_false, and_true, true_and, and_false,
      false_and, or_true, true_or, or_false, false_or, if_true, if_false, not_true,
      not_false_iff, reduceIte] <;>
    split_ifs <;> push_cast <;> ring_nf

/-- The confidence score never falls below its base 0.4: every bonus is
non-negative and the only clamp is the cap at 1. -/
theorem calculateConfidence_ge (s : ImgStats) : (0.4 : ℚ) ≤ calculateConfidence s := by
  rw [calculateConfidence_closed_form]
  have h1 : 0 ≤ agreementAdd s := by unfold agreementAdd; split_ifs <;> norm_num
  have h2 : 0 ≤ handwritingAdd s := by unfold handwritingAdd; split_ifs <;> norm_num
  have h3 : 0 ≤ densityAdd s := by unfold densityAdd; split_ifs <;> norm_num
  have h4 : 0 ≤ complexityAdd s := by unfold complexityAdd; split_ifs <;> norm_num
  have h5 : (0 : ℚ) ≤ (((agreementScore s + handwritingScore s : ℕ) : ℚ) / 6) * 0.2 := by
    positivity
  exact le_min (by linarith) (by norm_num)

/-- **C10** — for every input buffer, `analyzeImage` returns confidence
≥ 0.4: the normal path starts from base 0.4 and only adds non-negative
bonuses before the cap at 1, and the decode-failure fallback path returns
the fixed 0.6. -/
theorem analyzeImage_confidence_ge_base (decode : List ℕ → Option ImgStats)
    (buf : List ℕ) : (0.4 : ℚ) ≤ (analyzeImage decode buf).confidence := by
  unfold analyzeImage
  cases hd : decode buf with
  | none => norm_num
  | some s => exact calculateConfidence_ge s

/-- **C8 counterexample** — at an analysis where exactly two of the three
typed-text signals are true (line and stroke consistency, not spacing
uniformity), the claimed ladder awards +0.25, forcing a confidence of at
least 0.4 + 0.25 = 0.65; the code awards only +0.15 (its middle tier needs
line consistency AND spacing uniformity) and yields 7/12 < 0.65. -/
theorem calculateConfidence_two_true_counterexample :
    ((if statsTwoAgree.lineConsistent then 1 else 0) +
     (if statsTwoAgree.spacingUniform then 1 else 0) +
     (if statsTwoAgree.strokeConsistent then 1 else 0) = 2) ∧
    calculateConfidence statsTwoAgree = 7 / 12 ∧
    ¬((0.65 : ℚ) ≤ calculateConfidence statsTwoAgree) := by
  have hs : (("high" : String) = "low") = False := eq_false (by decide)
  refine ⟨rfl, ?_, ?_⟩ <;>
    rw [calculateConfidence_closed_form] <;>
    norm_num [agreementAdd, handwritingAdd, densityAdd, complexityAdd, agreementScore,
      handwritingScore, inconsistencyCount, statsTwoAgree, min_def, hs]

/-- **C8 (amended)** — the Analyzer's confidence equals: base 0.4; plus 0.4
when all three of {isConsistent, uniform, consistent} are true, else plus
0.25 when isConsistent and uniform are both true, else plus 0.15 when
isConsistent or uniform is true (stroke consistency alone adds nothing);
plus 0.3 when the handwriting-disagreement count is ≥ 2; plus 0.1 when
density is in (0.02, 0.7); plus 0.15 for low complexity with density < 0.3
or 0.1 for high complexity with density > 0.3; plus agreementRatio × 0.2
where the agreement score is 3/2/1/0 along the same ladder plus the
disagreement count when ≥ 2, over 6 total checks; capped at 1 (the result
is automatically ≥ 0, so it lies in [0,1]). -/
theorem calculateConfidence_amended_formula (s : ImgStats) :
    calculateConfidence s =
      min (0.4 + agreementAdd s + handwritingAdd s + densityAdd s + complexityAdd s +
        (((agreementScore s + handwritingScore s : ℕ) : ℚ) / 6) * 0.2) 1 :=
  calculateConfidence_closed_form s

/-- **C3** — the strategy decision is a strict first-match-wins priority
chain: batch, then handwriting (≥ 2 disagreements), then mixed, then
lightweight (density < 0.1), else standard; in particular low density, low
complexity and fewer than 2 disagreements always yield `lightweight`. -/
theorem determineOCRStrategy_priority (s : ImgStats) :
    ((s.density > 0.4 ∧ s.complexity = "high") → determineOCRStrategy s = "batch") ∧
    (¬(s.density > 0.4 ∧ s.complexity = "high") → inconsistencyCount s ≥ 2 →
      determineOCRStrategy s = "handwriting") ∧
    (¬(s.density > 0.4 ∧ s.complexity = "high") → inconsistencyCount s < 2 →
      (s.density > 0.3 ∧ s.complexity = "high" ∧ (¬s.lineConsistent ∨ ¬s.spacingUniform)) →
      determineOCRStrategy s = "mixed") ∧
    (¬(s.density > 0.4 ∧ s.complexity = "high") → inconsistencyCount s < 2 →
      ¬(s.density > 0.3 ∧ s.complexity = "high" ∧ (¬s.lineConsistent ∨ ¬s.spacingUniform)) →
      s.density < 0.1 → determineOCRStrategy s = "lightweight") ∧
    (¬(s.density > 0.4 ∧ s.complexity = "high") → inconsistencyCount s < 2 →
      ¬(s.density > 0.3 ∧ s.complexity = "high" ∧ (¬s.lineConsistent ∨ ¬s.spacingUniform)) →
      ¬(s.density < 0.1) → determineOCRStrategy s = "standard") ∧
    (s.density < 0.1 → s.complexity = "low" → inconsistencyCount s < 2 →
      determineOCRStrategy s = "lightweight") := by
  unfold determineOCRStrategy
  dsimp only
  refine ⟨fun hb => ?_, fun hb hh => ?_, fun hb hh hm => ?_, fun hb hh hm hl => ?_,
    fun hb hh hm hl => ?_, fun hl hc hh => ?_⟩
  · rw [if_pos hb]
  · rw [if_neg hb, if_pos hh]
  · rw [if_neg hb, if_neg (by omega), if_pos hm]
  · rw [if_neg hb, if_neg (by omega), if_neg hm, if_pos hl]
  · rw [if_neg hb, if_neg (by omega), if_neg hm, if_neg hl]
  · have hb : ¬(s.density > 0.4 ∧ s.complexity = "high") := by
      rintro ⟨-, h2⟩
      rw [hc] at h2
      exact absurd h2 (by decide)
    have hm : ¬(s.density > 0.3 ∧ s.complexity = "high" ∧
        (¬s.lineConsistent ∨ ¬s.spacingUniform)) := by
      rintro ⟨-, h2, -⟩
      rw [hc] at h2
      exact absurd h2 (by decide)
    rw [if_neg hb, if_neg (by omega), if_neg hm, if_pos hl]

/-- Witness for C3: a blank low-complexity consistent image (density 0) is
routed to `lightweight`. -/
theorem determineOCRStrategy_priority_witness :
    statsClean.density < 0.1 ∧ statsClean.complexity = "low" ∧
      inconsistencyCount statsClean < 2 ∧
      determineOCRStrategy statsClean = "lightweight" :=
  ⟨by norm_num [statsClean], rfl, by decide,
    (determineOCRStrategy_priority statsClean).2.2.2.2.2 (by norm_num [statsClean]) rfl
      (by decide)⟩

/-- `fileSizeKB > 500` in terms of the byte count. -/
theorem kb500 (n : ℕ) : ((n : ℚ) / 1024 > 500) ↔ 512000 < n := by
  rw [gt_iff_lt, lt_div_iff (by norm_num : (0 : ℚ) < 1024)]
  norm_num

/-- `fileSizeKB > 1000` in terms of the byte count. -/
theorem kb1000 (n : ℕ) : ((n : ℚ) / 1024 > 1000) ↔ 1024000 < n := by
  rw [gt_iff_lt, lt_div_iff (by norm_num : (0 : ℚ) < 1024)]
  norm_num

/-- `fileSizeKB > 2000` in terms of the byte count. -/
theorem kb2000 (n : ℕ) : ((n : ℚ) / 1024 > 2000) ↔ 2048000 < n := by
  rw [gt_iff_lt, lt_div_iff (by norm_num : (0 : ℚ) < 1024)]
  norm_num

/-- The file-size heuristic as four byte-count bands. -/
theorem fallbackStats_bands (n : ℕ) :
    fallbackStats n =
      if 2048000 < n then
        { density := 0.3, lineConsistent := false, spacingUniform := false,
          strokeConsistent := false, complexity := "high" }
      else if 1024000 < n then
        { density := 0.3, lineConsistent := true, spacingUniform := true,
          strokeConsistent := true, complexity := "medium" }
      else if 512000 < n then
        { density := 0.3, lineConsistent := true, spacingUniform := true,
          strokeConsistent := true, complexity := "low" }
      else
        { density := 0.1, lineConsistent := true, spacingUniform := true,
          strokeConsistent := true, complexity := "low" } := by
  unfold fallbackStats
  simp only [kb500, kb1000, kb2000]
  split_ifs <;> first | rfl | omega

/-- Larger buffers map to bands with (weakly) higher assumed density,
complexity and inconsistency. -/
theorem fallbackStats_mono (n₁ n₂ : ℕ) (h : n₁ ≤ n₂) :
    (fallbackStats n₁).density ≤ (fallbackStats n₂).density ∧
    complexityRank (fallbackStats n₁) ≤ complexityRank (fallbackStats n₂) ∧
    inconsistencyCount (fallbackStats n₁) ≤ inconsistencyCount (fallbackStats n₂) := by
  rw [fallbackStats_bands n₁, fallbackStats_bands n₂]
  split_ifs <;> refine ⟨?_, ?_, ?_⟩ <;>
    first
      | decide
      | (norm_num; done)
      | omega

/-- **C4** — `analyzeImage` never throws (it is total): when image decode
fails it returns the file-size-heuristic analysis with `isFallback = true`
and `confidence = 0.6`, and the heuristic maps larger files to (weakly)
higher assumed density, complexity and inconsistency. -/
theorem analyzeImage_decode_failure_fallback :
    ∀ (decode : List ℕ → Option ImgStats) (buf : List ℕ),
      decode buf = none →
      (analyzeImage decode buf).isFallback = true ∧
      (analyzeImage decode buf).confidence = 0.6 ∧
      (analyzeImage decode buf).stats = fallbackStats buf.length ∧
      (∀ n₁ n₂ : ℕ, n₁ ≤ n₂ →
        (fallbackStats n₁).density ≤ (fallbackStats n₂).density ∧
        complexityRank (fallbackStats n₁) ≤ complexityRank (fallbackStats n₂) ∧
        inconsistencyCount (fallbackStats n₁) ≤ inconsistencyCount (fallbackStats n₂)) := by
  intro decode buf h
  refine ⟨?_, ?_, ?_, fun n₁ n₂ hle => fallbackStats_mono n₁ n₂ hle⟩ <;>
    simp [analyzeImage, h]

/-- Witness for C4: a 1-byte undecodable buffer yields the fallback
analysis with confidence 0.6, and the heuristic density grows from the
smallest to a 600 KB file. -/
theorem analyzeImage_decode_failure_fallback_witness :
    decodeFail [0] = none ∧ (1 : ℕ) ≤ 600000 ∧
    (analyzeImage decodeFail [0]).isFallback = true ∧
    (analyzeImage decodeFail [0]).confidence = 0.6 ∧
    (fallbackStats 1).density ≤ (fallbackStats 600000).density :=
  have h := analyzeImage_decode_failure_fallback decodeFail [0] rfl
  ⟨rfl, by norm_num, h.1, h.2.1, (h.2.2.2 1 600000 (by norm_num)).1⟩

/-- `normalizeAmount` lands in [0, 1e7] on every input. -/
theorem normalizeAmount_bounds (v : Option ℚ) :
    0 ≤ normalizeAmount v ∧ normalizeAmount v ≤ 10000000 := by
  match v with
  | none => norm_num [normalizeAmount]
  | some num =>
    simp only [normalizeAmount, jsRound]
    set c := min (max num 0) 10000000 with hc
    have hc0 : (0 : ℚ) ≤ c := le_min (le_max_right _ _) (by norm_num)
    have hc1 : c ≤ 10000000 := min_le_right _ _
    constructor
    · apply div_nonneg _ (by norm_num : (0 : ℚ) ≤ 100)
      have h0 : (0 : ℤ) ≤ ⌊c * 100 + 1 / 2⌋ := Int.le_floor.mpr (by push_cast; linarith)
      exact_mod_cast h0
    · rw [div_le_iff (by norm_num : (0 : ℚ) < 100)]
      have hfl : ⌊c * 100 + 1 / 2⌋ ≤ (1000000000 : ℤ) := by
        have h1 : c * 100 + 1 / 2 ≤ (1000000000 : ℚ) + 1 / 2 := by linarith
        have h2 : ⌊c * 100 + 1 / 2⌋ ≤ ⌊(1000000000 : ℚ) + 1 / 2⌋ := Int.floor_le_floor h1
        have h3 : ⌊(1000000000 : ℚ) + 1 / 2⌋ = (1000000000 : ℤ) := by
          rw [Int.floor_eq_iff]
          norm_num
        omega
      calc ((⌊c * 100 + 1 / 2⌋ : ℤ) : ℚ) ≤ ((1000000000 : ℤ) : ℚ) := by exact_mod_cast hfl
        _ = 10000000 * 100 := by norm_num

/-- **C1** — for every model response (and in fact for every processor
outcome built from it), the amount that `scanReceipt` returns after the
sanitization layer satisfies `0 ≤ amount ≤ 1e7`: `normalizeAmount` clamps
to that interval and 2-decimal rounding preserves it. -/
theorem scanReceipt_amount_bounds
    (decode : List ℕ → Option ImgStats) (adapter : Adapter) (now : ℤ) (elapsed : ℚ)
    (file : JsFile) (opts : ProcOptions) (st : ProcState) :
    0 ≤ scanReceiptAmount (processReceipt decode adapter now elapsed file opts st).1 ∧
    scanReceiptAmount (processReceipt decode adapter now elapsed file opts st).1 ≤ 10000000 := by
  unfold scanReceiptAmount
  exact normalizeAmount_bounds _

/-! ### Cache lemmas -/

/-- `Map.set` grows the list by at most one entry. -/
theorem jsMapSet_length_le (k : String) (v : Enriched) (m : List (String × Enriched)) :
    (jsMapSet k v m).length ≤ m.length + 1 := by
  induction m with
  | nil => simp [jsMapSet]
  | cons p rest ih =>
    obtain ⟨k', v'⟩ := p
    by_cases h : k' = k <;> simp [jsMapSet, h] <;> omega

/-- Deleting the head key of an association list drops exactly the head. -/
theorem jsMapDelete_cons_head (k : String) (v : Enriched)
    (rest : List (String × Enriched)) : jsMapDelete k ((k, v) :: rest) = rest := by
  simp [jsMapDelete]

/-- Setting a fresh key appends it at the end (insertion order). -/
theorem jsMapSet_fresh (k : String) (v : Enriched) (m : List (String × Enriched))
    (h : k ∉ m.map Prod.fst) : jsMapSet k v m = m ++ [(k, v)] := by
  induction m with
  | nil => rfl
  | cons p rest ih =>
    obtain ⟨k', v'⟩ := p
    simp only [List.map_cons, List.mem_cons] at h
    push_neg at h
    simp only [jsMapSet, if_neg (fun hh : k' = k => h.1 hh.symm), List.cons_append,
      List.cons.injEq, true_and]
    exact ih h.2

/-- Looking up a key that is absent from the list yields `none`. -/
theorem jsMapLookup_eq_none (k : String) (m : List (String × Enriched))
    (h : k ∉ m.map Prod.fst) : jsMapLookup k m = none := by
  induction m with
  | nil => rfl
  | cons p rest ih =>
    obtain ⟨k', v'⟩ := p
    simp only [List.map_cons, List.mem_cons] at h
    push_neg at h
    simp only [jsMapLookup, if_neg (fun hh : k' = k => h.1 hh.symm)]
    exact ih h.2

/-- Looking up the key just set yields the stored value. -/
theorem jsMapLookup_set (k : String) (v : Enriched) (m : List (String × Enriched)) :
    jsMapLookup k (jsMapSet k v m) = some v := by
  induction m with
  | nil => simp [jsMapSet, jsMapLookup]
  | cons p rest ih =>
    obtain ⟨k', v'⟩ := p
    by_cases h : k' = k <;> simp [jsMapSet, jsMapLookup, h] <;> exact ih

/-- One `updateCache` keeps the cache within its capacity. -/
theorem updateCache_length (k : String) (v : Enriched) (m : List (String × Enriched))
    (h : m.length ≤ 100) : (updateCache k v m).length ≤ 100 := by
  have hcap : cacheMaxSize = 100 := rfl
  unfold updateCache
  match m, h with
  | [], h =>
    rw [if_neg (by simp [hcap] : ¬ ([] : List (String × Enriched)).length ≥ cacheMaxSize)]
    simp [jsMapSet]
  | (k0, v0) :: rest, h =>
    by_cases hfull : ((k0, v0) :: rest).length ≥ cacheMaxSize
    · rw [if_pos hfull]
      simp only [List.head?_cons]
      rw [jsMapDelete_cons_head]
      have h1 := jsMapSet_length_le k v rest
      have h2 : ((k0, v0) :: rest).length = rest.length + 1 := rfl
      omega
    · rw [if_neg hfull]
      show (jsMapSet k v ((k0, v0) :: rest)).length ≤ 100
      have h1 := jsMapSet_length_le k v ((k0, v0) :: rest)
      rw [hcap] at hfull
      have h2 : ((k0, v0) :: rest).length = rest.length + 1 := rfl
      omega

/-- Under capacity, inserting a fresh key is a plain append. -/
theorem updateCache_fresh_append (k : String) (v : Enriched)
    (m : List (String × Enriched)) (hlen : m.length < 100)
    (hk : k ∉ m.map Prod.fst) : updateCache k v m = m ++ [(k, v)] := by
  have hcap : cacheMaxSize = 100 := rfl
  unfold updateCache
  rw [if_neg (by omega : ¬ m.length ≥ cacheMaxSize)]
  exact jsMapSet_fresh k v m hk

/-- At capacity, inserting a fresh key evicts exactly the head (oldest)
entry and appends the new one. -/
theorem updateCache_fifo (k : String) (v : Enriched) (m : List (String × Enriched))
    (hlen : m.length = 100) (hk : k ∉ m.map Prod.fst) :
    updateCache k v m = m.tail ++ [(k, v)] := by
  match m with
  | [] => simp at hlen
  | (k0, v0) :: rest =>
    have hcap : cacheMaxSize = 100 := rfl
    unfold updateCache
    rw [if_pos (by omega : ((k0, v0) :: rest).length ≥ cacheMaxSize)]
    simp only [List.head?_cons]
    rw [jsMapDelete_cons_head]
    have hk' : k ∉ rest.map Prod.fst := by
      simp only [List.map_cons, List.mem_cons] at hk
      push_neg at hk
      exact hk.2
    rw [jsMapSet_fresh k v rest hk']
    rfl

/-- Folding `updateCache` from any within-capacity cache stays within
capacity. -/
theorem cacheFold_length_le (ops : List (String × Enriched)) :
    ∀ c : List (String × Enriched), c.length ≤ 100 →
      (ops.foldl (fun c p => updateCache p.1 p.2 c) c).length ≤ 100 := by
  induction ops with
  | nil => intro c hc; simpa using hc
  | cons p rest ih =>
    intro c hc
    simp only [List.foldl_cons]
    exact ih _ (updateCache_length p.1 p.2 c hc)

/-- Inserting distinct fresh keys while under capacity appends them in
order. -/
theorem cacheFold_fresh (ops : List (String × Enriched)) :
    ∀ c : List (String × Enriched),
      ((c.map Prod.fst) ++ (ops.map Prod.fst)).Nodup → c.length + ops.length ≤ 100 →
      ops.foldl (fun acc p => updateCache p.1 p.2 acc) c = c ++ ops := by
  induction ops with
  | nil => intro c _ _; simp
  | cons p rest ih =>
    intro c hnd hlen
    obtain ⟨k, v⟩ := p
    simp only [List.foldl_cons]
    have hk : k ∉ c.map Prod.fst := by
      simp only [List.map_cons, List.nodup_append, List.nodup_cons] at hnd
      intro hmem
      exact hnd.2.2 hmem (by simp)
    have hclen : c.length < 100 := by
      have hc : ((k, v) :: rest).length = rest.length + 1 := rfl
      omega
    have hupd : updateCache k v c = c ++ [(k, v)] :=
      updateCache_fresh_append k v c hclen hk
    have hnd2 : (((c ++ [(k, v)]).map Prod.fst) ++ (rest.map Prod.fst)).Nodup := by
      simp only [List.map_append, List.map_cons, List.map_nil, List.append_assoc,
        List.singleton_append]
      simpa only [List.map_cons] using hnd
    have hlen2 : (c ++ [(k, v)]).length + rest.length ≤ 100 := by
      have hc : ((k, v) :: rest).length = rest.length + 1 := rfl
      simp only [List.length_append, List.length_cons, List.length_nil]
      omega
    rw [hupd, ih (c ++ [(k, v)]) hnd2 hlen2]
    simp

/-- **C6** — (i) any sequence of `updateCache` insertions starting from the
empty cache keeps the cache at ≤ 100 entries; (ii) at capacity, inserting a
fresh key evicts exactly the first-inserted (head) entry; (iii) inserting
101 entries with distinct keys starting from the empty cache leaves exactly
100 entries and the first-inserted key is no longer present. -/
theorem cache_bounded_fifo :
    (∀ ops : List (String × Enriched),
       (ops.foldl (fun acc p => updateCache p.1 p.2 acc) ([] : List (String × Enriched))).length
         ≤ 100) ∧
    (∀ (k : String) (v : Enriched) (m : List (String × Enriched)),
       m.length = 100 → k ∉ m.map Prod.fst →
       updateCache k v m = m.tail ++ [(k, v)]) ∧
    (∀ (init : List (String × Enriched)) (kl : String) (vl : Enriched)
       (k : String) (v : Enriched) (tl : List (String × Enriched)),
       init = (k, v) :: tl → init.length = 100 →
       ((init ++ [(kl, vl)]).map Prod.fst).Nodup →
       ((init ++ [(kl, vl)]).foldl (fun acc p => updateCache p.1 p.2 acc)
           ([] : List (String × Enriched))).length = 100 ∧
       jsMapLookup k
         ((init ++ [(kl, vl)]).foldl (fun acc p => updateCache p.1 p.2 acc)
           ([] : List (String × Enriched))) = none) := by
  refine ⟨fun ops => cacheFold_length_le ops [] (by simp),
          fun k v m h1 h2 => updateCache_fifo k v m h1 h2, ?_⟩
  intro init kl vl k v tl hinit hlen hnd
  have hndsplit : ((init.map Prod.fst) ++ [kl]).Nodup := by
    simpa only [List.map_append, List.map_cons, List.map_nil] using hnd
  rw [List.nodup_append] at hndsplit
  have hndinit : (init.map Prod.fst).Nodup := hndsplit.1
  have hklfresh : kl ∉ init.map Prod.fst := by
    intro hmem
    exact hndsplit.2.2 hmem (by simp)
  have hfold : (init ++ [(kl, vl)]).foldl (fun acc p => updateCache p.1 p.2 acc)
      ([] : List (String × Enriched)) =
      updateCache kl vl (init.foldl (fun acc p => updateCache p.1 p.2 acc) []) := by
    rw [List.foldl_append]
    rfl
  have hinitfold : init.foldl (fun acc p => updateCache p.1 p.2 acc) [] = init := by
    have := cacheFold_fresh init [] (by simpa using hndinit) (by simp [hlen])
    simpa using this
  have hfifo : updateCache kl vl init = init.tail ++ [(kl, vl)] :=
    updateCache_fifo kl vl init hlen hklfresh
  have hfinal : (init ++ [(kl, vl)]).foldl (fun acc p => updateCache p.1 p.2 acc)
      ([] : List (String × Enriched)) = init.tail ++ [(kl, vl)] := by
    rw [hfold, hinitfold, hfifo]
  constructor
  · rw [hfinal, hinit]
    have : ((k, v) :: tl).length = tl.length + 1 := rfl
    simp only [List.tail_cons, List.length_append, List.length_cons, List.length_nil]
    rw [hinit] at hlen
    simp only [List.length_cons] at hlen
    omega
  · rw [hfinal]
    apply jsMapLookup_eq_none
    subst hinit
    simp only [List.map_cons, List.nodup_cons] at hndinit
    simp only [List.tail_cons, List.map_append, List.map_cons, List.map_nil,
      List.mem_append, List.mem_cons, List.not_mem_nil]
    push_neg
    refine ⟨hndinit.1, ?_, fun hf => hf⟩
    intro hkkl
    apply hklfresh
    rw [← hkkl]
    simp

/-- Witness for C6: a concrete full cache of 100 distinct keys, plus a
fresh 101st key, evicts exactly the key inserted first. -/
theorem cache_bounded_fifo_witness :
    cache100.length = 100 ∧ "newkey" ∉ cache100.map Prod.fst ∧
    updateCache "newkey" dummyEnriched cache100 =
      cache100.tail ++ [("newkey", dummyEnriched)] :=
  have h1 : cache100.length = 100 := by simp [cache100]
  have h2 : "newkey" ∉ cache100.map Prod.fst := by decide
  ⟨h1, h2, cache_bounded_fifo.2.1 "newkey" dummyEnriched cache100 h1 h2⟩

/-- The router's escalation test, negated: non-trivial text. -/
theorem not_trivialText_iff (g : RespText) :
    ¬trivialText g ↔ (¬(g.raw = "") ∧ (jsTrim g.raw).length > 1) := by
  unfold trivialText
  rw [not_or]
  constructor
  · rintro ⟨h1, h2⟩
    exact ⟨h1, by omega⟩
  · rintro ⟨h1, h2⟩
    exact ⟨h1, by omega⟩

/-- The escalation loop stops at the first escalation whose text is
non-trivial, having called the adapter once per attempt. -/
theorem escLoop_first (adapter : Adapter) (pre : List ModelRef) (e : ModelRef)
    (post : List ModelRef) :
    ∀ (t : RespText) (m : String) (c : ℕ),
      (∀ p ∈ pre, trivialText (adapter p.modelId)) →
      ¬trivialText (adapter e.modelId) →
      escLoop adapter (pre ++ e :: post) t m c =
        (adapter e.modelId, e.modelId, c + pre.length + 1) := by
  induction pre with
  | nil =>
    intro t m c _ he
    simp only [List.nil_append]
    rw [escLoop]
    rw [if_pos ((not_trivialText_iff _).mp he)]
    simp
  | cons p pre' ih =>
    intro t m c hpre he
    simp only [List.cons_append]
    rw [escLoop]
    have hp : trivialText (adapter p.modelId) := hpre p (by simp)
    rw [if_neg (fun hcond => ((not_trivialText_iff _).mpr hcond) hp)]
    rw [ih _ _ _ (fun q hq => hpre q (by simp [hq])) he]
    simp only [List.length_cons, Prod.mk.injEq, eq_self_iff_true, true_and]
    omega

/-- **C5** — when the primary text is trivial (empty or < 2 chars after
trimming), `routeToOCR` walks the escalation list in order, stops at the
first escalation with non-trivial text, and — provided that escalation
parses to a positive amount, so the amount-retry loop does not fire —
returns that escalation's parsed amount with `model` set to the escalation
model id, not the primary. -/
theorem routeToOCR_escalation (adapter : Adapter) (strategy : String) (now : ℤ)
    (pre : List ModelRef) (e : ModelRef) (post : List ModelRef)
    (hesc : (resolveModelForStrategy strategy).escalate = pre ++ e :: post)
    (hprim : trivialText (adapter (resolveModelForStrategy strategy).primary.modelId))
    (hpre : ∀ p ∈ pre, trivialText (adapter p.modelId))
    (he : ¬trivialText (adapter e.modelId))
    (hamt : 0 < (parseAndValidateResponse (adapter e.modelId) strategy now).amount) :
    (routeToOCR adapter strategy now).model = e.modelId ∧
    (routeToOCR adapter strategy now).res.amount =
      (parseAndValidateResponse (adapter e.modelId) strategy now).amount := by
  unfold routeToOCR
  dsimp only
  rw [hesc]
  rw [if_pos (show (adapter (resolveModelForStrategy strategy).primary.modelId).raw = "" ∨
      (jsTrim (adapter (resolveModelForStrategy strategy).primary.modelId).raw).length < 2
      from hprim)]
  rw [escLoop_first adapter pre e post _ _ _ hpre he]
  dsimp only
  rw [if_neg (fun hcond => absurd hamt (not_lt.mpr hcond.1))]
  exact ⟨rfl, rfl⟩

/-- Witness for C5: with a stubbed adapter whose primary (`lightweight`)
response is empty and whose escalation (`google/gemma-3-27b-it:free`)
response is a valid object with amount 12.5, the router reports the
escalation model and its parsed amount. -/
theorem routeToOCR_escalation_witness :
    trivialText (adapterEsc (resolveModelForStrategy "lightweight").primary.modelId) ∧
    ¬trivialText (adapterEsc gemmaEsc.modelId) ∧
    0 < (parseAndValidateResponse (adapterEsc gemmaEsc.modelId) "lightweight" 0).amount ∧
    ((routeToOCR adapterEsc "lightweight" 0).model = gemmaEsc.modelId ∧
     (routeToOCR adapterEsc "lightweight" 0).res.amount =
       (parseAndValidateResponse (adapterEsc gemmaEsc.modelId) "lightweight" 0).amount) :=
  have hesc : (resolveModelForStrategy "lightweight").escalate = [] ++ gemmaEsc :: [] := rfl
  have h1 : trivialText (adapterEsc (resolveModelForStrategy "lightweight").primary.modelId) := by
    decide
  have h2 : ¬trivialText (adapterEsc gemmaEsc.modelId) := by decide
  have h3 : 0 < (parseAndValidateResponse (adapterEsc gemmaEsc.modelId) "lightweight" 0).amount := by
    norm_num [parseAndValidateResponse, adapterEsc, gemmaEsc, okResp]
  ⟨h1, h2, h3,
    routeToOCR_escalation adapterEsc "lightweight" 0 [] gemmaEsc [] hesc h1
      (by simp) h2 h3⟩

/-- Looking up the key just cached yields the cached value. -/
theorem jsMapLookup_updateCache (k : String) (v : Enriched)
    (m : List (String × Enriched)) : jsMapLookup k (updateCache k v m) = some v := by
  unfold updateCache
  exact jsMapLookup_set k v _

/-- `processReceipt` on a cache hit returns the cached enriched result
verbatim and leaves the state untouched. -/
theorem processReceipt_cache_hit (decode : List ℕ → Option ImgStats) (adapter : Adapter)
    (now : ℤ) (elapsed : ℚ) (file : JsFile) (opts : ProcOptions) (st : ProcState)
    (c : Enriched) (hsize : file.size ≠ 0) (hcache : opts.useCache = true)
    (hl : jsMapLookup (md5 file.bytes) st.cache = some c) :
    processReceipt decode adapter now elapsed file opts st = (ProcResult.enriched c, st) := by
  unfold processReceipt
  rw [if_neg hsize, hcache]
  dsimp only
  rw [hl]
  simp

/-- `processReceipt` on a cache miss (or with caching disabled) runs the
router, post-processes, updates metrics, and (when caching) stores the
enriched result. -/
theorem processReceipt_cache_miss (decode : List ℕ → Option ImgStats) (adapter : Adapter)
    (now : ℤ) (elapsed : ℚ) (file : JsFile) (opts : ProcOptions) (st : ProcState)
    (hsize : file.size ≠ 0)
    (hmiss : (if opts.useCache then jsMapLookup (md5 file.bytes) st.cache else none) = none) :
    processReceipt decode adapter now elapsed file opts st =
      (ProcResult.enriched
         (postProcessResult (routerProcessReceipt decode adapter file.bytes now) opts now),
       { cache :=
           if opts.useCache then
             updateCache (md5 file.bytes)
               (postProcessResult (routerProcessReceipt decode adapter file.bytes now) opts now)
               st.cache
           else st.cache,
         metrics := updateMetrics st.metrics
           (postProcessResult (routerProcessReceipt decode adapter file.bytes now) opts
             now).res.strategy
           (postProcessResult (routerProcessReceipt decode adapter file.bytes now) opts
             now).res.confidence
           elapsed,
         modelCalls := st.modelCalls + (routerProcessReceipt decode adapter file.bytes now).calls }) := by
  unfold processReceipt
  rw [if_neg hsize]
  dsimp only
  rw [hmiss]

/-- The escalation loop never decreases the adapter call counter. -/
theorem escLoop_calls_le (adapter : Adapter) :
    ∀ (l : List ModelRef) (t : RespText) (m : String) (c : ℕ),
      c ≤ (escLoop adapter l t m c).2.2 := by
  intro l
  induction l with
  | nil => intro t m c; simp [escLoop]
  | cons esc rest ih =>
    intro t m c
    rw [escLoop]
    by_cases h : ¬(adapter esc.modelId).raw = "" ∧ (jsTrim (adapter esc.modelId).raw).length > 1
    · rw [if_pos h]
      exact Nat.le_succ c
    · rw [if_neg h]
      exact le_trans (Nat.le_succ c) (ih _ _ _)

/-- The amount-retry loop never decreases the adapter call counter. -/
theorem retryLoop_calls_le (adapter : Adapter) (strategy : String) (now : ℤ) :
    ∀ (l : List ModelRef) (p : OCRResult) (m : String) (c : ℕ),
      c ≤ (retryLoop adapter strategy now l p m c).2.2 := by
  intro l
  induction l with
  | nil => intro p m c; simp [retryLoop]
  | cons esc rest ih =>
    intro p m c
    rw [retryLoop]
    by_cases h : (parseAndValidateResponse (adapter esc.modelId) strategy now).amount > 0
    · rw [if_pos h]
      exact Nat.le_succ c
    · rw [if_neg h]
      exact le_trans (Nat.le_succ c) (ih _ _ _)

/-- `routeToOCR` always invokes the adapter at least once. -/
theorem routeToOCR_calls_pos (adapter : Adapter) (strategy : String) (now : ℤ) :
    1 ≤ (routeToOCR adapter strategy now).calls := by
  unfold routeToOCR
  dsimp only
  split_ifs with h1 h2 h3
  · exact le_trans (escLoop_calls_le adapter _ _ _ 1)
      (retryLoop_calls_le adapter strategy now _ _ _ _)
  · exact escLoop_calls_le adapter _ _ _ 1
  · exact retryLoop_calls_le adapter strategy now _ _ _ 1
  · exact le_refl 1

/-- The strategy recorded on the routed result is the analyzer's
recommendation. -/
theorem routerProcessReceipt_res_strategy (decode : List ℕ → Option ImgStats)
    (adapter : Adapter) (buf : List ℕ) (now : ℤ) :
    (routerProcessReceipt decode adapter buf now).res.strategy =
      (analyzeImage decode buf).recommendedStrategy := rfl

/-- The analyzer's recommendation is always derived from its stats. -/
theorem analyzeImage_recommended (decode : List ℕ → Option ImgStats) (buf : List ℕ) :
    (analyzeImage decode buf).recommendedStrategy =
      determineOCRStrategy (analyzeImage decode buf).stats := by
  unfold analyzeImage
  cases decode buf <;> rfl

/-- The five strategy labels are all non-empty strings. -/
theorem determineOCRStrategy_ne_empty (s : ImgStats) : determineOCRStrategy s ≠ "" := by
  unfold determineOCRStrategy
  dsimp only
  split_ifs <;> decide

/-- **C7** — with identical bytes and `useCache = true`, a second
`processReceipt` call returns exactly the first call's result (the cached
enriched object, keyed by the content hash of the bytes) and performs no
additional adapter (model) invocation. -/
theorem processReceipt_cache_idempotent (decode : List ℕ → Option ImgStats)
    (adapter : Adapter) (now₁ now₂ : ℤ) (elapsed₁ elapsed₂ : ℚ) (file : JsFile)
    (opts : ProcOptions) (st : ProcState)
    (hcache : opts.useCache = true) (hsize : file.size ≠ 0) :
    (processReceipt decode adapter now₂ elapsed₂ file opts
        (processReceipt decode adapter now₁ elapsed₁ file opts st).2).1 =
      (processReceipt decode adapter now₁ elapsed₁ file opts st).1 ∧
    (processReceipt decode adapter now₂ elapsed₂ file opts
        (processReceipt decode adapter now₁ elapsed₁ file opts st).2).2.modelCalls =
      (processReceipt decode adapter now₁ elapsed₁ file opts st).2.modelCalls := by
  cases hl : jsMapLookup (md5 file.bytes) st.cache with
  | some c =>
    rw [processReceipt_cache_hit decode adapter now₁ elapsed₁ file opts st c hsize hcache hl]
    rw [processReceipt_cache_hit decode adapter now₂ elapsed₂ file opts st c hsize hcache hl]
    exact ⟨rfl, rfl⟩
  | none =>
    have hmiss : (if opts.useCache then jsMapLookup (md5 file.bytes) st.cache else none)
        = none := by rw [hcache, if_pos rfl]; exact hl
    rw [processReceipt_cache_miss decode adapter now₁ elapsed₁ file opts st hsize hmiss]
    rw [processReceipt_cache_hit decode adapter now₂ elapsed₂ file opts _ _ hsize hcache
      (by dsimp only; rw [hcache, if_pos rfl]; exact jsMapLookup_updateCache _ _ _)]
    exact ⟨rfl, rfl⟩

/-- Witness for C7: a concrete jpeg processed twice with caching on — the
second call returns the first call's object with no new model call. -/
theorem processReceipt_cache_idempotent_witness :
    optsCache.useCache = true ∧ fileJpeg.size ≠ 0 ∧
    ((processReceipt decodeClean adapterOk 5 1 fileJpeg optsCache
        (processReceipt decodeClean adapterOk 0 1 fileJpeg optsCache state0).2).1 =
      (processReceipt decodeClean adapterOk 0 1 fileJpeg optsCache state0).1 ∧
     (processReceipt decodeClean adapterOk 5 1 fileJpeg optsCache
        (processReceipt decodeClean adapterOk 0 1 fileJpeg optsCache state0).2).2.modelCalls =
      (processReceipt decodeClean adapterOk 0 1 fileJpeg optsCache state0).2.modelCalls) :=
  ⟨rfl, by decide,
    processReceipt_cache_idempotent decodeClean adapterOk 0 5 1 1 fileJpeg optsCache state0
      rfl (by decide)⟩

/-- **C9** — on every processed (non-cache-hit, non-empty-file) request
that returns a result, the metrics are mutated: `totalProcessed` increments
by 1, `strategyCounts[strategy]` increments by 1 (other strategies
untouched), and both `averageProcessingTime` and `successRate` (running
mean of `confidence > 0.5`) follow the incremental-mean formula
`newMean = (oldMean*(n-1) + x)/n` with `n` the new total. -/
theorem processReceipt_metrics_update (decode : List ℕ → Option ImgStats) (adapter : Adapter)
    (now : ℤ) (elapsed : ℚ) (file : JsFile) (opts : ProcOptions) (st : ProcState)
    (hsize : file.size ≠ 0)
    (hmiss : (if opts.useCache then jsMapLookup (md5 file.bytes) st.cache else none) = none) :
    ∀ e : Enriched,
      (processReceipt decode adapter now elapsed file opts st).1 = ProcResult.enriched e →
      (processReceipt decode adapter now elapsed file opts st).2.metrics.totalProcessed =
        st.metrics.totalProcessed + 1 ∧
      (processReceipt decode adapter now elapsed file opts st).2.metrics.strategyCounts
          e.res.strategy = st.metrics.strategyCounts e.res.strategy + 1 ∧
      (∀ k, k ≠ e.res.strategy →
        (processReceipt decode adapter now elapsed file opts st).2.metrics.strategyCounts k =
          st.metrics.strategyCounts k) ∧
      (processReceipt decode adapter now elapsed file opts st).2.metrics.averageProcessingTime =
        (st.metrics.averageProcessingTime * (((st.metrics.totalProcessed + 1 : ℕ) : ℚ) - 1) +
          elapsed) / ((st.metrics.totalProcessed + 1 : ℕ) : ℚ) ∧
      (processReceipt decode adapter now elapsed file opts st).2.metrics.successRate =
        (st.metrics.successRate * (((st.metrics.totalProcessed + 1 : ℕ) : ℚ) - 1) +
          (if e.res.confidence > 0.5 then 1 else 0)) / ((st.metrics.totalProcessed + 1 : ℕ) : ℚ) := by
  intro e he
  have hrun := processReceipt_cache_miss decode adapter now elapsed file opts st hsize hmiss
  rw [hrun] at he
  have he' : postProcessResult (routerProcessReceipt decode adapter file.bytes now) opts now
      = e := by simpa using he
  subst he'
  rw [hrun]
  have hne : (postProcessResult (routerProcessReceipt decode adapter file.bytes now) opts
      now).res.strategy ≠ "" := by
    have hst : (postProcessResult (routerProcessReceipt decode adapter file.bytes now) opts
        now).res.strategy = (analyzeImage decode file.bytes).recommendedStrategy := rfl
    rw [hst, analyzeImage_recommended]
    exact determineOCRStrategy_ne_empty _
  refine ⟨rfl, ?_, ?_, rfl, rfl⟩
  · simp only [updateMetrics]
    rw [if_neg hne]
    simp
  · intro k hk
    simp only [updateMetrics]
    rw [if_neg hne]
    simp [hk]

/-- Witness for C9: one concrete processed request increments the counters
and folds `elapsed = 7` into the running means. -/
theorem processReceipt_metrics_update_witness :
    fileJpeg.size ≠ 0 ∧
    ((processReceipt decodeClean adapterOk 0 7 fileJpeg optsPlain state0).2.metrics.totalProcessed
        = state0.metrics.totalProcessed + 1 ∧
     (processReceipt decodeClean adapterOk 0 7 fileJpeg optsPlain state0).2.metrics.strategyCounts
         (postProcessResult (routerProcessReceipt decodeClean adapterOk fileJpeg.bytes 0)
           optsPlain 0).res.strategy =
       state0.metrics.strategyCounts
         (postProcessResult (routerProcessReceipt decodeClean adapterOk fileJpeg.bytes 0)
           optsPlain 0).res.strategy + 1 ∧
     (∀ k, k ≠ (postProcessResult (routerProcessReceipt decodeClean adapterOk fileJpeg.bytes 0)
           optsPlain 0).res.strategy →
       (processReceipt decodeClean adapterOk 0 7 fileJpeg optsPlain state0).2.metrics.strategyCounts
           k = state0.metrics.strategyCounts k) ∧
     (processReceipt decodeClean adapterOk 0 7 fileJpeg optsPlain
         state0).2.metrics.averageProcessingTime =
       (state0.metrics.averageProcessingTime * (((state0.metrics.totalProcessed + 1 : ℕ) : ℚ) - 1)
         + 7) / ((state0.metrics.totalProcessed + 1 : ℕ) : ℚ) ∧
     (processReceipt decodeClean adapterOk 0 7 fileJpeg optsPlain state0).2.metrics.successRate =
       (state0.metrics.successRate * (((state0.metrics.totalProcessed + 1 : ℕ) : ℚ) - 1) +
         (if (postProcessResult (routerProcessReceipt decodeClean adapterOk fileJpeg.bytes 0)
             optsPlain 0).res.confidence > 0.5 then 1 else 0)) /
         ((state0.metrics.totalProcessed + 1 : ℕ) : ℚ)) :=
  ⟨by decide,
    processReceipt_metrics_update decodeClean adapterOk 0 7 fileJpeg optsPlain state0
      (by decide) rfl
      (postProcessResult (routerProcessReceipt decodeClean adapterOk fileJpeg.bytes 0) optsPlain 0)
      rfl⟩

/-- **C2 (amended)** — no input is rejected before a model invocation:
an empty file makes the main path throw, but the error is caught and
fallback processing still invokes the model at least once; an oversized or
wrong-MIME file merely fails pre-validation (which only logs a warning) and
processing continues normally, invoking the model at least once and
returning an enriched result. -/
theorem processReceipt_invalid_inputs_not_rejected (decode : List ℕ → Option ImgStats)
    (adapter : Adapter) (now : ℤ) (elapsed : ℚ) (file : JsFile) (opts : ProcOptions)
    (st : ProcState) :
    (file.size = 0 →
      (processReceipt decode adapter now elapsed file opts st).1.isEnriched = false ∧
      st.modelCalls < (processReceipt decode adapter now elapsed file opts st).2.modelCalls) ∧
    (file.size ≠ 0 →
      (if opts.useCache then jsMapLookup (md5 file.bytes) st.cache else none) = none →
      (file.size > 10 * 1024 * 1024 ∨
        ¬(file.type = "image/jpeg" ∨ file.type = "image/png" ∨ file.type = "image/webp")) →
      (validateAndPreprocess file.bytes file).isSome = true ∧
      (processReceipt decode adapter now elapsed file opts st).1.isEnriched = true ∧
      st.modelCalls < (processReceipt decode adapter now elapsed file opts st).2.modelCalls) := by
  constructor
  · intro h0
    unfold processReceipt
    rw [if_pos h0]
    unfold fallbackProcessing
    dsimp only
    refine ⟨rfl, ?_⟩
    have h1 := routeToOCR_calls_pos adapter "fallback" now
    omega
  · intro hsize hmiss hbad
    rw [processReceipt_cache_miss decode adapter now elapsed file opts st hsize hmiss]
    refine ⟨?_, rfl, ?_⟩
    · unfold validateAndPreprocess
      rcases hbad with hbig | htype
      · rw [if_pos hbig]
        rfl
      · by_cases hbig : file.size > 10 * 1024 * 1024
        · rw [if_pos hbig]
          rfl
        · rw [if_neg hbig, if_pos htype]
          rfl
    · dsimp only
      have h1 := routeToOCR_calls_pos adapter
        (analyzeImage decode file.bytes).recommendedStrategy now
      have h2 : (routerProcessReceipt decode adapter file.bytes now).calls =
          (routeToOCR adapter (analyzeImage decode file.bytes).recommendedStrategy now).calls :=
        rfl
      omega

/-- **C2 counterexample** — a 10MB+1 jpeg upload refutes the claim: its
pre-validation fails with "File too large", yet `processReceipt` does not
reject it — it returns a normal enriched result and the vision model is
invoked at least once. -/
theorem processReceipt_oversized_counterexample :
    validateAndPreprocess fileOversized.bytes fileOversized = some "File too large" ∧
    (processReceipt decodeClean adapterOk 0 0 fileOversized optsPlain state0).1.isEnriched
      = true ∧
    1 ≤ (processReceipt decodeClean adapterOk 0 0 fileOversized optsPlain state0).2.modelCalls := by
  have hrun := processReceipt_cache_miss decodeClean adapterOk 0 0 fileOversized optsPlain
    state0 (by decide) rfl
  refine ⟨by decide, ?_, ?_⟩
  · rw [hrun]
    rfl
  · rw [hrun]
    dsimp only
    have h1 := routeToOCR_calls_pos adapterOk
      (analyzeImage decodeClean fileOversized.bytes).recommendedStrategy 0
    have h2 : (routerProcessReceipt decodeClean adapterOk fileOversized.bytes 0).calls =
        (routeToOCR adapterOk (analyzeImage decodeClean fileOversized.bytes).recommendedStrategy
          0).calls := rfl
    have h3 : state0.modelCalls = 0 := rfl
    omega

/-- Witness for the amended C2: both branches at concrete inputs — an empty
file goes to fallback processing with a model call; an oversized jpeg fails
pre-validation yet is processed normally with a model call. -/
theorem processReceipt_invalid_inputs_not_rejected_witness :
    ((processReceipt decodeClean adapterOk 0 0 fileEmpty optsPlain state0).1.isEnriched = false ∧
     state0.modelCalls <
       (processReceipt decodeClean adapterOk 0 0 fileEmpty optsPlain state0).2.modelCalls) ∧
    ((validateAndPreprocess fileOversized.bytes fileOversized).isSome = true ∧
     (processReceipt decodeClean adapterOk 0 0 fileOversized optsPlain state0).1.isEnriched
       = true ∧
     state0.modelCalls <
       (processReceipt decodeClean adapterOk 0 0 fileOversized optsPlain state0).2.modelCalls) :=
  ⟨(processReceipt_invalid_inputs_not_rejected decodeClean adapterOk 0 0 fileEmpty optsPlain
      state0).1 rfl,
   (processReceipt_invalid_inputs_not_rejected decodeClean adapterOk 0 0 fileOversized optsPlain
      state0).2 (by decide) rfl (Or.inl (by decide))⟩

end OCR
